import Mathlib

/-!
Shallow embedding of `src/src/cache/MessageCache.js` (RainCache).

The cache is a thin layer over a storage engine and a per-namespace id
index.  `MessageCache` extends a `BaseCache` that is not part of the
sources; the pieces of `BaseCache` and of the collaborators that the
claims need (`bindObject`, `addToIndex`, `removeFromIndex`, the storage
engine's `find`/`filter`) are modelled from the spec and marked as such.

Asynchronous JS methods are embedded as pure functions that take the
collaborator state (`StorageState`) and return the result, the new state
and the ordered list of collaborator calls (`Effect`) the method issued.
The mutually self-referential `update`/`remove` bodies are embedded with
an explicit fuel parameter: `none` means the computation did not finish
within the given fuel; a result that is `none` for every fuel is a
non-terminating call.
-/

namespace RainCache

/-- A message entity: a JS object with an optional `id` field and an
optional `content` field (a representative payload field). `none` models
a missing/`undefined` field. -/
structure Message where
  id : Option String := none
  content : Option String := none
deriving DecidableEq

/-- JS truthiness test `!data.id` for a possibly-absent string field:
`undefined`/`null` and the empty string are falsy. -/
def jsFalsyId : Option String → Bool
  | none => true
  | some s => s == ""

/-- The JS value `m.id` as it is passed for a `String` parameter; an
`undefined` id renders as the string "undefined" (only ever reached on
paths that discard the argument). -/
def jsIdOf (m : Message) : String := m.id.getD "undefined"

/-- Combined state of the two external collaborators: the storage engine
(an association list from built keys to entities, most recent first) and
the per-namespace id index (a set of ids, as a duplicate-free list). -/
structure StorageState where
  store : List (String × Message) := []
  index : List String := []
deriving DecidableEq

/-- Storage engine `get(key)`: the entity most recently upserted at
`key`, or absence. -/
def storeGet (st : StorageState) (k : String) : Option Message :=
  st.store.lookup k

/-- Storage engine `upsert(key, entity)`: creates or overwrites at
`key`; `storeGet` sees the most recent write. -/
def storeUpsert (st : StorageState) (k : String) (m : Message) : StorageState :=
  { st with store := (k, m) :: st.store }

/-- Storage engine `remove(key)`: deletes every entry at `key`. -/
def storeRemove (st : StorageState) (k : String) : StorageState :=
  { st with store := st.store.filter (fun p => p.1 != k) }

/-- Modelled from the spec: the index collaborator's `addToIndex(id)`
(`BaseCache` is not in the sources).  The index is a set of ids: adding
an id already present leaves it unchanged. -/
def addToIndex (st : StorageState) (id : String) : StorageState :=
  if st.index.contains id then st else { st with index := id :: st.index }

/-- Modelled from the spec: the index collaborator's
`removeFromIndex(id)` (`BaseCache` is not in the sources). -/
def removeFromIndex (st : StorageState) (id : String) : StorageState :=
  { st with index := st.index.filter (fun j => j != id) }

/-- One call into an external collaborator, recorded in order of issue. -/
inductive Effect
  | engineGet (key : String)
  | engineUpsert (key : String) (data : Message)
  | engineRemove (key : String)
  | engineFilter
  | engineFind
  | addIdx (id : String)
  | removeIdx (id : String)
deriving DecidableEq

/-- A `MessageCache` instance: the namespace string (`namespace` is a
reserved word in Lean, so the field is `nspace`) and the `boundObject`
field, `none` when the instance is unbound.  The `storageEngine` field
of the JS class is the ambient `StorageState` and is not duplicated
here. -/
structure MessageCache where
  nspace : String
  boundObject : Option Message := none
deriving DecidableEq

/-- Modelled from the spec: `BaseCache.bindObject(entity)` stores a
reference to its argument in `this.boundObject` (`BaseCache` is not in
the sources). -/
def bindObject (c : MessageCache) (b : Option Message) : MessageCache :=
  { c with boundObject := b }

/-- The `MessageCache` constructor: sets the namespace to "message" and
binds the optional `boundObject` argument when it is truthy. -/
def MessageCache.new (boundObject : Option Message) : MessageCache :=
  let c : MessageCache := { nspace := "message", boundObject := none }
  if boundObject.isSome then bindObject c boundObject else c

/-- `buildId(messageId)`: the template literal
`${this.namespace}.${messageId}`. -/
def MessageCache.buildId (c : MessageCache) (messageId : String) : String :=
  c.nspace ++ "." ++ messageId

/-- JS truthiness of `this.boundObject`. -/
def MessageCache.isBound (c : MessageCache) : Bool := c.boundObject.isSome

/-- The dynamically-typed result of `get`: `null`, the raw bound message
object, or a wrapper `MessageCache` instance. -/
inductive GetResult
  | nullRes
  | msgRes (m : Message)
  | cacheRes (c : MessageCache)
deriving DecidableEq

/-- `get(id)`: when bound, returns `this.boundObject` with no storage
access; when unbound, queries storage at the built key and wraps a found
message in a new bound instance, or returns `null`. -/
def MessageCache.get (c : MessageCache) (id : String) (st : StorageState) :
    GetResult × StorageState × List Effect :=
  match c.boundObject with
  | some m => (GetResult.msgRes m, st, [])
  | none =>
    match storeGet st (c.buildId id) with
    | none => (GetResult.nullRes, st, [Effect.engineGet (c.buildId id)])
    | some message =>
      (GetResult.cacheRes (MessageCache.new (some message)), st,
        [Effect.engineGet (c.buildId id)])

/-- `if (!data.id) { data.id = id; }` — the entity as it stands after
the unbound `update` path's id assignment. -/
def dataWithId (id : String) (data : Message) : Message :=
  if jsFalsyId data.id then { data with id := some id } else data

/-- `update(id, data)`, fuel-indexed.  When bound: rebinds to `data` via
`bindObject`, re-invokes `update` with `this.boundObject.id` (the
instance is still bound there) and returns `this`.  When unbound:
assigns `id` into `data` if absent, adds `id` to the index, upserts at
the built key, and returns a new instance bound to `data`. -/
def MessageCache.update :
    Nat → MessageCache → String → Message → StorageState →
      Option (MessageCache × StorageState × List Effect)
  | 0, _, _, _, _ => none
  | fuel + 1, c, id, data, st =>
    match c.boundObject with
    | some _ =>
      let c2 := bindObject c (some data)
      match MessageCache.update fuel c2 (jsIdOf data) data st with
      | none => none
      | some (_, st2, tr) => some (c2, st2, tr)
    | none =>
      let data2 := dataWithId id data
      let st1 := addToIndex st id
      let st2 := storeUpsert st1 (c.buildId id) data2
      some (MessageCache.new (some data2), st2,
        [Effect.addIdx id, Effect.engineUpsert (c.buildId id) data2])

/-- The result of `remove`: `null` or the storage engine's removal
completion. -/
inductive RemoveResult
  | nullRes
  | done
deriving DecidableEq

/-- `remove(id)`, fuel-indexed.  When bound: re-invokes `remove` with
the bound entity's id (the instance is still bound there).  When
unbound: confirms existence via storage `get`; if absent returns `null`;
if present removes the id from the index then removes the key from
storage. -/
def MessageCache.remove :
    Nat → MessageCache → String → StorageState →
      Option (RemoveResult × StorageState × List Effect)
  | 0, _, _, _ => none
  | fuel + 1, c, id, st =>
    match c.boundObject with
    | some m => MessageCache.remove fuel c (jsIdOf m) st
    | none =>
      match storeGet st (c.buildId id) with
      | some _ =>
        let st1 := removeFromIndex st id
        let st2 := storeRemove st1 (c.buildId id)
        some (RemoveResult.done, st2,
          [Effect.engineGet (c.buildId id), Effect.removeIdx id,
            Effect.engineRemove (c.buildId id)])
      | none => some (RemoveResult.nullRes, st, [Effect.engineGet (c.buildId id)])

/-- Modelled from the spec: the entities the storage engine considers
for `filter`/`find` — all stored entities, or, under an id restriction,
the entities stored under this cache's keys for those ids. -/
def engineCandidates (st : StorageState) : Option (List String) → List Message
  | none => st.store.map Prod.snd
  | some ids => ids.filterMap (fun i => storeGet st ("message." ++ i))

/-- Modelled from the spec: storage engine `find(predicate, ids)` —
read-only, short-circuits on the first match, absence when none. -/
def engineFind (st : StorageState) (p : Message → Bool)
    (ids : Option (List String)) : Option Message :=
  (engineCandidates st ids).find? p

/-- Modelled from the spec: storage engine `filter(predicate, ids)` —
read-only, all matching entities. -/
def engineFilter (st : StorageState) (p : Message → Bool)
    (ids : Option (List String)) : List Message :=
  (engineCandidates st ids).filter p

/-- `filter(fn, ids)`: delegates to the engine and wraps every result in
a new bound instance. -/
def MessageCache.filter (c : MessageCache) (fn : Message → Bool)
    (ids : Option (List String)) (st : StorageState) :
    List MessageCache × StorageState × List Effect :=
  let message := engineFilter st fn ids
  (message.map (fun r => MessageCache.new (some r)), st, [Effect.engineFilter])

/-- The dynamically-typed result of `find`: `null` or a wrapper
instance.  The JS body always constructs a wrapper. -/
inductive FindResult
  | nullRes
  | cacheRes (c : MessageCache)
deriving DecidableEq

/-- `find(fn, ids)`: delegates to the engine's `find` and passes the
result — found entity or `null` — straight to the constructor. -/
def MessageCache.find (c : MessageCache) (fn : Message → Bool)
    (ids : Option (List String)) (st : StorageState) :
    FindResult × StorageState × List Effect :=
  let message := engineFind st fn ids
  (FindResult.cacheRes (MessageCache.new message), st, [Effect.engineFind])

/-- Effect `a` is issued strictly before effect `b` in trace `tr`. -/
def precedesIn (a b : Effect) (tr : List Effect) : Prop :=
  ∃ n m, n < m ∧ tr.get? n = some a ∧ tr.get? m = some b

/-- The empty collaborator state. -/
def stEmpty : StorageState := {}

/-- A concrete message used at concrete evaluation points. -/
def msgEx : Message := { id := some "1", content := some "hi" }

/-! ### Helper lemmas -/

/-- The constructor preserves the namespace for any argument. -/
theorem nspace_new (b : Option Message) : (MessageCache.new b).nspace = "message" := by
  cases b <;> rfl

/-- The constructor stores exactly its argument in `boundObject`: it
binds when the argument is truthy and leaves the instance unbound
otherwise. -/
theorem boundObject_new (b : Option Message) : (MessageCache.new b).boundObject = b := by
  cases b <;> rfl

/-- On a bound instance, `update` re-enters the bound branch at every
recursive call (`bindObject` leaves `boundObject` set), so no amount of
fuel completes it. -/
theorem update_bound_none (d : Message) (st : StorageState) :
    ∀ (fuel : Nat) (c : MessageCache) (id : String), c.boundObject.isSome →
      MessageCache.update fuel c id d st = none := by
  intro fuel
  induction fuel with
  | zero => intro c id _; rfl
  | succ n ih =>
    intro c id h
    match hb : c.boundObject with
    | none => rw [hb] at h; exact absurd h (by simp)
    | some m =>
      have hrec : MessageCache.update n (bindObject c (some d)) (jsIdOf d) d st = none :=
        ih _ _ (by simp [bindObject])
      simp only [MessageCache.update, hb, hrec]

/-- On a bound instance, `remove` re-enters the bound branch at every
recursive call, so no amount of fuel completes it. -/
theorem remove_bound_none (st : StorageState) :
    ∀ (fuel : Nat) (c : MessageCache) (id : String), c.boundObject.isSome →
      MessageCache.remove fuel c id st = none := by
  intro fuel
  induction fuel with
  | zero => intro c id _; rfl
  | succ n ih =>
    intro c id h
    match hb : c.boundObject with
    | none => rw [hb] at h; exact absurd h (by simp)
    | some m =>
      have hrec : MessageCache.remove n c (jsIdOf m) st = none := ih _ _ h
      simp only [MessageCache.remove, hb, hrec]

/-- Closed form of the unbound `update` path. -/
theorem update_unbound_eq (fuel : Nat) (c : MessageCache) (i : String) (d : Message)
    (st : StorageState) (hc : c.boundObject = none) :
    MessageCache.update (fuel + 1) c i d st =
      some (MessageCache.new (some (dataWithId i d)),
        storeUpsert (addToIndex st i) (c.buildId i) (dataWithId i d),
        [Effect.addIdx i, Effect.engineUpsert (c.buildId i) (dataWithId i d)]) := by
  simp only [MessageCache.update, hc]

/-- `storeGet` finds the most recent upsert at the same key. -/
theorem storeGet_upsert_self (st : StorageState) (k : String) (m : Message) :
    storeGet (storeUpsert st k m) k = some m := by
  simp [storeGet, storeUpsert, List.lookup]

/-! ### Claim theorems -/

/-- C1: `update` on a bound instance is claimed to rebind and then
perform the unbound update path with the new data's id, returning self
bound to the updated entity.  The code instead re-enters the bound
branch on every recursive call, so `update` on a bound instance never
completes: for every fuel bound, every id, every data and every
collaborator state it fails to produce a result. -/
theorem update_on_bound_never_completes (fuel : Nat) (id : String) (data : Message)
    (st : StorageState) :
    MessageCache.update fuel (MessageCache.new (some msgEx)) id data st = none :=
  update_bound_none data st fuel _ id (by rw [boundObject_new]; rfl)

/-- C2: `get` on a bound instance is claimed to return the cache
instance itself.  The code returns `this.boundObject` — the raw message
object, not a cache instance — with no storage access and the passed id
ignored. -/
theorem get_on_bound_returns_raw_entity (id : String) (st : StorageState) :
    MessageCache.get (MessageCache.new (some msgEx)) id st =
      (GetResult.msgRes msgEx, st, []) := rfl

/-- C4: `remove` on a bound instance is claimed to delegate to the
remove path with the bound entity's own id and return a completion or
absence signal.  The code re-enters the bound branch on every recursive
call, so `remove` on a bound instance never completes. -/
theorem remove_on_bound_never_completes (fuel : Nat) (id : String) (st : StorageState) :
    MessageCache.remove fuel (MessageCache.new (some msgEx)) id st = none :=
  remove_bound_none st fuel _ id (by rw [boundObject_new]; rfl)

/-- C3 counterexample: with a predicate matching nothing over the empty
store, the engine's `find` yields nothing, yet `find` returns a wrapper
cache instance (unbound), not the absence signal. -/
theorem find_not_found_counterexample :
    (MessageCache.find (MessageCache.new none) (fun _ => false) none stEmpty).1 =
      FindResult.cacheRes (MessageCache.new none) ∧
    (MessageCache.find (MessageCache.new none) (fun _ => false) none stEmpty).1 ≠
      FindResult.nullRes := by
  exact ⟨rfl, by decide⟩

/-- C3 (amended): when the engine's `find` yields nothing, `find`
returns a new unbound wrapper cache instance — not the absence signal —
and in particular never a bound instance with a null entity: any
wrapper it returns is bound exactly when the engine produced an entity,
and holds that entity. -/
theorem find_not_found_returns_unbound_wrapper (c : MessageCache) (fn : Message → Bool)
    (ids : Option (List String)) (st : StorageState)
    (h : engineFind st fn ids = none) :
    (MessageCache.find c fn ids st).1 = FindResult.cacheRes (MessageCache.new none) ∧
    ∀ c', (MessageCache.find c fn ids st).1 = FindResult.cacheRes c' →
      c'.boundObject = none := by
  constructor
  · simp only [MessageCache.find, h]
  · intro c' hc'
    simp only [MessageCache.find, h] at hc'
    cases hc'
    exact boundObject_new none

/-- C3 witness: the amended statement at a concrete not-found input. -/
theorem find_not_found_returns_unbound_wrapper_witness :
    (MessageCache.find (MessageCache.new none) (fun _ => true) (some []) stEmpty).1 =
      FindResult.cacheRes (MessageCache.new none) :=
  (find_not_found_returns_unbound_wrapper (MessageCache.new none) (fun _ => true)
    (some []) stEmpty rfl).1

/-- C5: after `update(i, d)` on an unbound cache, `get(i)` on an unbound
cache returns a cache bound to the stored entity, which is `d` with its
`id` set to `i` exactly when `d` carried no (truthy) id.  The concrete
storage model meets the engine contract: `get` at a key returns the last
entity upserted there (`storeGet_upsert_self`). -/
theorem update_then_get_returns_data (fuel : Nat) (i : String) (d : Message)
    (st : StorageState) (c1 : MessageCache) (st1 : StorageState) (tr : List Effect)
    (h : MessageCache.update (fuel + 1) (MessageCache.new none) i d st = some (c1, st1, tr)) :
    (MessageCache.get (MessageCache.new none) i st1).1 =
      GetResult.cacheRes (MessageCache.new (some (dataWithId i d))) ∧
    c1.boundObject = some (dataWithId i d) ∧
    (jsFalsyId d.id = true → dataWithId i d = { d with id := some i }) ∧
    (jsFalsyId d.id = false → dataWithId i d = d) := by
  rw [update_unbound_eq fuel _ i d st (boundObject_new none)] at h
  simp only [Option.some.injEq, Prod.mk.injEq] at h
  obtain ⟨hc1, hst1, -⟩ := h
  subst hst1
  refine ⟨?_, ?_, ?_, ?_⟩
  · simp only [MessageCache.get, boundObject_new, storeGet_upsert_self]
  · rw [← hc1, boundObject_new]
  · intro hf; simp [dataWithId, hf]
  · intro hf; simp [dataWithId, hf]

/-- C5 witness: the create-then-read round trip at namespace "message",
id "42", data `{content:"hi"}`. -/
theorem update_then_get_returns_data_witness :
    (MessageCache.get (MessageCache.new none) "42"
        (storeUpsert (addToIndex stEmpty "42") ((MessageCache.new none).buildId "42")
          (dataWithId "42" { content := some "hi" }))).1 =
      GetResult.cacheRes (MessageCache.new (some (dataWithId "42" { content := some "hi" }))) :=
  (update_then_get_returns_data 0 "42" { content := some "hi" } stEmpty
    (MessageCache.new (some (dataWithId "42" { content := some "hi" })))
    (storeUpsert (addToIndex stEmpty "42") ((MessageCache.new none).buildId "42")
      (dataWithId "42" { content := some "hi" }))
    [Effect.addIdx "42", Effect.engineUpsert ((MessageCache.new none).buildId "42")
      (dataWithId "42" { content := some "hi" })]
    rfl).1

/-- C6: in the unbound `update` path the index addition is issued
strictly before the storage upsert, and in the unbound `remove` path on
a present id the index removal is issued strictly before the storage
removal. -/
theorem index_mutation_precedes_store_mutation (c : MessageCache) (i : String) (d : Message)
    (st : StorageState) (hc : c.boundObject = none) :
    (∃ res st' tr, MessageCache.update 1 c i d st = some (res, st', tr) ∧
      precedesIn (Effect.addIdx i) (Effect.engineUpsert (c.buildId i) (dataWithId i d)) tr) ∧
    (∀ m, storeGet st (c.buildId i) = some m →
      ∃ res st' tr, MessageCache.remove 1 c i st = some (res, st', tr) ∧
        precedesIn (Effect.removeIdx i) (Effect.engineRemove (c.buildId i)) tr) := by
  constructor
  · exact ⟨_, _, _, update_unbound_eq 0 c i d st hc, 0, 1, by decide, rfl, rfl⟩
  · intro m hm
    have hrem : MessageCache.remove 1 c i st =
        some (RemoveResult.done, storeRemove (removeFromIndex st i) (c.buildId i),
          [Effect.engineGet (c.buildId i), Effect.removeIdx i,
            Effect.engineRemove (c.buildId i)]) := by
      simp only [MessageCache.remove, hc, hm]
    exact ⟨_, _, _, hrem, 1, 2, by decide, rfl, rfl⟩

/-- C6 witness: both orderings at a concrete state holding id "7". -/
theorem index_mutation_precedes_store_mutation_witness :
    ∃ res st' tr,
      MessageCache.remove 1 (MessageCache.new none) "7"
          (storeUpsert stEmpty ((MessageCache.new none).buildId "7") msgEx) =
        some (res, st', tr) ∧
      precedesIn (Effect.removeIdx "7")
        (Effect.engineRemove ((MessageCache.new none).buildId "7")) tr :=
  (index_mutation_precedes_store_mutation (MessageCache.new none) "7" msgEx
    (storeUpsert stEmpty ((MessageCache.new none).buildId "7") msgEx)
    (boundObject_new none)).2 msgEx
    (storeGet_upsert_self stEmpty ((MessageCache.new none).buildId "7") msgEx)

/-- C7: no operation yields a bound instance holding null.  The
constructor stores exactly its (guarded) argument; every wrapper that
`get`, `update` or `filter` returns is bound to an actual entity; the
wrapper `find` returns holds exactly the engine's result, so it is bound
only when an entity was found. -/
theorem bound_instance_entity_never_null :
    ((MessageCache.new none).boundObject = none) ∧
    (∀ m : Message, (MessageCache.new (some m)).boundObject = some m) ∧
    (∀ c id st c', (MessageCache.get c id st).1 = GetResult.cacheRes c' →
      ∃ m, c'.boundObject = some m) ∧
    (∀ fuel c id d st c' st' tr,
      MessageCache.update fuel c id d st = some (c', st', tr) →
      ∃ m, c'.boundObject = some m) ∧
    (∀ c fn ids st c', c' ∈ (MessageCache.filter c fn ids st).1 →
      ∃ m, c'.boundObject = some m) ∧
    (∀ c fn ids st c', (MessageCache.find c fn ids st).1 = FindResult.cacheRes c' →
      c'.boundObject = engineFind st fn ids) := by
  refine ⟨boundObject_new none, fun m => boundObject_new (some m), ?_, ?_, ?_, ?_⟩
  · intro c id st c' h
    match hb : c.boundObject with
    | some m =>
      simp only [MessageCache.get, hb] at h
      exact GetResult.noConfusion h
    | none =>
      match hg : storeGet st (c.buildId id) with
      | none =>
        simp only [MessageCache.get, hb, hg] at h
        exact GetResult.noConfusion h
      | some msg =>
        simp only [MessageCache.get, hb, hg] at h
        cases h
        exact ⟨msg, boundObject_new (some msg)⟩
  · intro fuel c id d st c' st' tr h
    match fuel with
    | 0 => exact absurd h (by simp [MessageCache.update])
    | n + 1 =>
      match hb : c.boundObject with
      | some m =>
        rw [update_bound_none d st (n + 1) c id (by rw [hb]; rfl)] at h
        exact absurd h (by simp)
      | none =>
        rw [update_unbound_eq n c id d st hb] at h
        simp only [Option.some.injEq, Prod.mk.injEq] at h
        exact ⟨dataWithId id d, by rw [← h.1, boundObject_new]⟩
  · intro c fn ids st c' h
    simp only [MessageCache.filter, List.mem_map] at h
    obtain ⟨r, -, hr⟩ := h
    exact ⟨r, by rw [← hr, boundObject_new]⟩
  · intro c fn ids st c' h
    simp only [MessageCache.find] at h
    cases h
    exact boundObject_new _

/-- C7 witness: the constructor at a concrete non-null argument binds to
that entity. -/
theorem bound_instance_entity_never_null_witness :
    (MessageCache.new (some msgEx)).boundObject = some msgEx :=
  bound_instance_entity_never_null.2.1 msgEx

/-- C8: `buildId` is a pure function of the namespace and the id,
yields "message.42" for id "42", and is injective over ids for every
constructed instance. -/
theorem buildId_pure_and_injective :
    (MessageCache.buildId (MessageCache.new none) "42" = "message.42") ∧
    (∀ (b : Option Message) (i1 i2 : String), i1 ≠ i2 →
      MessageCache.buildId (MessageCache.new b) i1 ≠
        MessageCache.buildId (MessageCache.new b) i2) := by
  constructor
  · rfl
  · intro b i1 i2 hne h
    apply hne
    have hd := congrArg String.data h
    rw [MessageCache.buildId, MessageCache.buildId, nspace_new] at hd
    simp only [String.data_append, List.append_assoc] at hd
    exact String.ext (List.append_cancel_left (List.append_cancel_left hd))

/-- C8 witness: injectivity at the concrete distinct ids "1" and "2". -/
theorem buildId_pure_and_injective_witness :
    ("1" : String) ≠ "2" ∧
    MessageCache.buildId (MessageCache.new none) "1" ≠
      MessageCache.buildId (MessageCache.new none) "2" :=
  ⟨by decide, buildId_pure_and_injective.2 none "1" "2" (by decide)⟩

/-- C9: `remove` on an unbound cache for an id with no stored entity
returns the absence signal, leaves the collaborator state (store and
index) unchanged, and issues only the existence check — no index
mutation and no storage removal. -/
theorem remove_missing_is_noop (fuel : Nat) (c : MessageCache) (i : String)
    (st : StorageState) (hc : c.boundObject = none)
    (h : storeGet st (c.buildId i) = none) :
    MessageCache.remove (fuel + 1) c i st =
      some (RemoveResult.nullRes, st, [Effect.engineGet (c.buildId i)]) := by
  simp only [MessageCache.remove, hc, h]

/-- C9 witness: removing id "9" from the empty store. -/
theorem remove_missing_is_noop_witness :
    MessageCache.remove 1 (MessageCache.new none) "9" stEmpty =
      some (RemoveResult.nullRes, stEmpty,
        [Effect.engineGet ((MessageCache.new none).buildId "9")]) :=
  remove_missing_is_noop 0 (MessageCache.new none) "9" stEmpty (boundObject_new none) rfl

/-- The id just added is in the index. -/
theorem mem_addToIndex (st : StorageState) (i : String) :
    i ∈ (addToIndex st i).index := by
  unfold addToIndex
  split
  · next hcon => simpa using hcon
  · exact List.mem_cons_self i _

/-- C10: when `data` already carries a truthy id `j` different from the
argument id `i`, the unbound `update` indexes under `i` and stores under
the key built from `i`, while `data` itself is stored and bound
unchanged — its id field stays `j`, which differs from `i`. -/
theorem update_mismatched_id_uses_argument_id (fuel : Nat) (i j : String) (d : Message)
    (st : StorageState) (hid : d.id = some j) (hne : j ≠ "") (hdiff : j ≠ i) :
    ∀ c' st' tr,
      MessageCache.update (fuel + 1) (MessageCache.new none) i d st = some (c', st', tr) →
      c' = MessageCache.new (some d) ∧
      storeGet st' ((MessageCache.new none).buildId i) = some d ∧
      i ∈ st'.index ∧
      c'.boundObject = some d ∧
      d.id ≠ some i := by
  have hfix : dataWithId i d = d := by
    simp [dataWithId, jsFalsyId, hid, hne]
  intro c' st' tr h
  rw [update_unbound_eq fuel _ i d st (boundObject_new none), hfix] at h
  simp only [Option.some.injEq, Prod.mk.injEq] at h
  obtain ⟨hc1, hst1, -⟩ := h
  subst hst1
  refine ⟨hc1.symm, storeGet_upsert_self .., mem_addToIndex st i, ?_, ?_⟩
  · rw [← hc1, boundObject_new]
  · rw [hid]
    intro hcontra
    exact hdiff (Option.some.inj hcontra)

/-- C10 witness: `update("1", {id:"2"})` on the empty state. -/
theorem update_mismatched_id_uses_argument_id_witness :
    ("1" : String) ∈ (storeUpsert (addToIndex stEmpty "1")
        ((MessageCache.new none).buildId "1") { id := some "2" } : StorageState).index :=
  (update_mismatched_id_uses_argument_id 0 "1" "2" { id := some "2" } stEmpty rfl
    (by decide) (by decide)
    (MessageCache.new (some { id := some "2" }))
    (storeUpsert (addToIndex stEmpty "1") ((MessageCache.new none).buildId "1")
      { id := some "2" })
    [Effect.addIdx "1", Effect.engineUpsert ((MessageCache.new none).buildId "1")
      { id := some "2" }]
    rfl).2.2.1

end RainCache
